import Mathlib

/-!
# Verification of the walk-forward portfolio back-test (`solution_skeleton.py`)

Shallow embedding of the core logic of the repository's single source file:

* `equalise_weights`  — benchmark equal-weight schedule generator;
* `sharpe_ratio`      — the objective handed to `scipy.optimize.minimize`
  (embedded over `ℝ` with Python's operator precedence preserved);
* `generate_portfolio`— the per-period walk-forward loop: date filter,
  pandas column mean / pairwise covariance estimates, one solver call per
  test period (the SLSQP call is abstracted as a `Solver` oracle, since the
  code never inspects anything but `opt_result.x`), the appended weight
  rows, and the single global 10% cap check;
* `plot_total_return` — NaN→0 replacement, weighted per-period returns,
  date sort, multiplicative chaining into total-return indices.

Return cells are `Option ℚ` (`none` models a missing/NaN observation);
dates are naturals; all money arithmetic is exact rational arithmetic so
that every statement is decidable on concrete inputs.
-/

/-- One row of a return matrix: a month-end date plus one (possibly
missing) fractional return per stock column. -/
structure Row where
  month_end : ℕ
  returns : List (Option ℚ)
deriving DecidableEq, Repr

/-- One row of a weight schedule: a month-end date plus one weight per
stock column. -/
structure WRow where
  month_end : ℕ
  weights : List ℚ
deriving DecidableEq, Repr

def rowdflt : Row := ⟨0, []⟩

def wrdflt : WRow := ⟨0, []⟩

/-- Lines 24–49 (`equalise_weights`): copy the
frame and overwrite every stock column of every row with the scalar
`1 / p`, `p` being the number of stock columns.  The assignment is
unconditional: it never looks at the return cells. -/
def equalise_weights (p : ℕ) (df : List Row) : List WRow :=
  df.map (fun r => ⟨r.month_end, List.replicate p (1 / (p : ℚ))⟩)

/-! ## The optimizer objective (`sharpe_ratio`, lines 100–106)

Embedded over `ℝ`.  Python evaluates
`portfolio_return / 0.5*(100*portfolio_volatility)**3` as
`(portfolio_return / 0.5) * (100*portfolio_volatility)**3` — `/` and `*`
have equal precedence and associate left — and the function's result is
passed to `scipy.optimize.minimize` without negation. -/

def dot (xs ys : List ℝ) : ℝ := (List.zipWith (fun a b => a * b) xs ys).sum

def matVec (m : List (List ℝ)) (v : List ℝ) : List ℝ := m.map (fun row => dot row v)

/-- Line 105 of the source, with Python's left-associative `/ … *`
precedence kept intact. -/
noncomputable def sharpe_ratio (weights expected : List ℝ) (cov : List (List ℝ)) : ℝ :=
  let portfolio_return := dot weights expected
  let portfolio_vol := Real.sqrt (dot weights (matVec cov weights))
  portfolio_return / 0.5 * (100 * portfolio_vol) ^ 3

/-- The objective the spec writes: the same numerator *divided by* the
whole term `0.5 · (100·σ)³`. -/
noncomputable def spec_objective (weights expected : List ℝ) (cov : List (List ℝ)) : ℝ :=
  let portfolio_return := dot weights expected
  let portfolio_vol := Real.sqrt (dot weights (matVec cov weights))
  portfolio_return / (0.5 * (100 * portfolio_vol) ^ 3)

/-- C1. The code's objective and the spec's objective disagree already at
the unit-variance point `w = (1,0)`, `μ = (1,0)`, `Σ = I₂`: the code
computes `(w·μ)/0.5 · (100σ)³ = 2·10⁶` where the spec's formula gives
`(w·μ)/(0.5·(100σ)³) = 2·10⁻⁶`; moreover the code hands this value to a
*minimizer* unnegated, so it does not maximize either expression. -/
theorem sharpe_ratio_is_not_the_spec_ratio :
    sharpe_ratio [1, 0] [1, 0] [[1, 0], [0, 1]] = 2000000 ∧
      spec_objective [1, 0] [1, 0] [[1, 0], [0, 1]] = 1 / 500000 ∧
      sharpe_ratio [1, 0] [1, 0] [[1, 0], [0, 1]] ≠
        spec_objective [1, 0] [1, 0] [[1, 0], [0, 1]] := by
  have hdot : dot [1, 0] (matVec [[1, 0], [0, 1]] [1, 0]) = 1 := by
    simp [dot, matVec]
  have hnum : dot [1, 0] [1, 0] = 1 := by simp [dot]
  refine ⟨?_, ?_, ?_⟩
  · simp only [ sharpe_ratio, hdot, hnum, Real.sqrt_one]
    norm_num
  · simp only [spec_objective, hdot, hnum, Real.sqrt_one]
    norm_num
  · simp only [ sharpe_ratio, spec_objective, hdot, hnum, Real.sqrt_one]
    norm_num

/-- C5. `equalise_weights` keeps the period count and the dates, and gives
every stock in every period exactly the weight `1/p`, unconditionally. -/
theorem equalise_weights_uniform (p : ℕ) (df : List Row) (i : ℕ)
    (hi : i < df.length) :
    (equalise_weights p df).length = df.length ∧
      ((equalise_weights p df).getD i wrdflt).month_end =
        (df.getD i rowdflt).month_end ∧
      ((equalise_weights p df).getD i wrdflt).weights =
        List.replicate p (1 / (p : ℚ)) := by
  have hlen : (equalise_weights p df).length = df.length := by
    simp [equalise_weights]
  have hi' : i < (equalise_weights p df).length := by rwa [hlen]
  refine ⟨hlen, ?_, ?_⟩
  · rw [List.getD_eq_getElem _ _ hi', List.getD_eq_getElem _ _ hi]
    simp [equalise_weights]
  · rw [List.getD_eq_getElem _ _ hi']
    simp [equalise_weights]

/-- Witness for C5 on a concrete two-period, three-stock frame. -/
theorem equalise_weights_uniform_witness :
    1 < ([⟨3, [some 1, none, some 2]⟩, ⟨4, [none, none, none]⟩] : List Row).length ∧
      ((equalise_weights 3 [⟨3, [some 1, none, some 2]⟩, ⟨4, [none, none, none]⟩]).length = 2 ∧
        ((equalise_weights 3 [⟨3, [some 1, none, some 2]⟩, ⟨4, [none, none, none]⟩]).getD 1 wrdflt).month_end =
          (([⟨3, [some 1, none, some 2]⟩, ⟨4, [none, none, none]⟩] : List Row).getD 1 rowdflt).month_end ∧
        ((equalise_weights 3 [⟨3, [some 1, none, some 2]⟩, ⟨4, [none, none, none]⟩]).getD 1 wrdflt).weights =
          List.replicate 3 (1 / (3 : ℚ))) :=
  ⟨by decide,
    equalise_weights_uniform 3 [⟨3, [some 1, none, some 2]⟩, ⟨4, [none, none, none]⟩] 1 (by decide)⟩

/-! ## The walk-forward estimator (lines 108–112)

`df_latest = df_returns[df_returns["month_end"] < df_test.loc[i, "month_end"]]`
followed by pandas `.mean()` (per-column arithmetic mean over the non-missing
cells) and `.cov()` (pairwise-complete unbiased sample covariance; `NaN`
when fewer than two complete pairs exist). -/

/-- The row selection of line 109: every row of the combined frame whose
date is strictly before the target date. -/
def walk_forward (df : List Row) (t : ℕ) : List Row :=
  df.filter (fun r => decide (r.month_end < t))

/-- The non-missing values of column `j`. -/
def colVals (rows : List Row) (j : ℕ) : List ℚ :=
  rows.filterMap (fun r => r.returns.getD j none)

/-- pandas `DataFrame.mean` for column `j`: mean of the present cells,
`NaN` (here `none`) when the column has no observation. -/
def colMean (rows : List Row) (j : ℕ) : Option ℚ :=
  let vs := colVals rows j
  if vs.length = 0 then none else some (vs.sum / (vs.length : ℚ))

/-- The rows where both column `j` and column `k` are present. -/
def pairVals (rows : List Row) (j k : ℕ) : List (ℚ × ℚ) :=
  rows.filterMap (fun r =>
    match r.returns.getD j none, r.returns.getD k none with
    | some a, some b => some (a, b)
    | _, _ => none)

/-- pandas `DataFrame.cov` entry `(j, k)`: unbiased sample covariance over
the pairwise-complete rows (denominator `m − 1`), `NaN` (here `none`) when
fewer than two complete pairs exist. -/
def pairCov (rows : List Row) (j k : ℕ) : Option ℚ :=
  let ps := pairVals rows j k
  if 2 ≤ ps.length then
    let ma := (ps.map Prod.fst).sum / (ps.length : ℚ)
    let mb := (ps.map Prod.snd).sum / (ps.length : ℚ)
    some (((ps.map (fun q => (q.1 - ma) * (q.2 - mb))).sum) / ((ps.length - 1 : ℕ) : ℚ))
  else none

/-- Line 111: `expected_returns = df_latest.drop(columns=["month_end"]).mean()`. -/
def expected_returns (p : ℕ) (rows : List Row) : List (Option ℚ) :=
  (List.range p).map (colMean rows)

/-- Line 112: `cov_matrix = df_latest.drop(columns=["month_end"]).cov()`. -/
def cov_matrix (p : ℕ) (rows : List Row) : List (List (Option ℚ)) :=
  (List.range p).map (fun j => (List.range p).map (pairCov rows j))

/-- C2. No look-ahead: the period-`t` estimate is a function of the rows
dated strictly before `t` alone — two return matrices that agree on those
rows get the same mean vector and covariance matrix for `t`. -/
theorem estimates_no_lookahead (p : ℕ) (df1 df2 : List Row) (t : ℕ)
    (h : walk_forward df1 t = walk_forward df2 t) :
    expected_returns p (walk_forward df1 t) = expected_returns p (walk_forward df2 t) ∧
      cov_matrix p (walk_forward df1 t) = cov_matrix p (walk_forward df2 t) := by
  rw [h]
  exact ⟨rfl, rfl⟩

/-- Witness for C2: two frames that differ only in a row dated after the
target period (a mutated "future" return) give identical estimates. -/
theorem estimates_no_lookahead_witness :
    walk_forward [⟨0, [some 1, some 2]⟩, ⟨1, [some 3, some 4]⟩, ⟨7, [some 5, some 6]⟩] 3 =
        walk_forward [⟨0, [some 1, some 2]⟩, ⟨1, [some 3, some 4]⟩, ⟨7, [some 99, none]⟩] 3 ∧
      expected_returns 2 (walk_forward [⟨0, [some 1, some 2]⟩, ⟨1, [some 3, some 4]⟩, ⟨7, [some 5, some 6]⟩] 3) =
          expected_returns 2 (walk_forward [⟨0, [some 1, some 2]⟩, ⟨1, [some 3, some 4]⟩, ⟨7, [some 99, none]⟩] 3) ∧
        cov_matrix 2 (walk_forward [⟨0, [some 1, some 2]⟩, ⟨1, [some 3, some 4]⟩, ⟨7, [some 5, some 6]⟩] 3) =
          cov_matrix 2 (walk_forward [⟨0, [some 1, some 2]⟩, ⟨1, [some 3, some 4]⟩, ⟨7, [some 99, none]⟩] 3) :=
  ⟨by decide,
    estimates_no_lookahead 2
      [⟨0, [some 1, some 2]⟩, ⟨1, [some 3, some 4]⟩, ⟨7, [some 5, some 6]⟩]
      [⟨0, [some 1, some 2]⟩, ⟨1, [some 3, some 4]⟩, ⟨7, [some 99, none]⟩] 3 (by decide)⟩

/-- The value of a present cell (only used on cells known to be present). -/
def valAt (r : Row) (j : ℕ) : ℚ := (r.returns.getD j none).getD 0

theorem colVals_of_complete (rows : List Row) (j : ℕ)
    (h : ∀ r ∈ rows, (r.returns.getD j none).isSome = true) :
    colVals rows j = rows.map (fun r => valAt r j) := by
  induction rows with
  | nil => rfl
  | cons r rs ih =>
    obtain ⟨v, hv⟩ := Option.isSome_iff_exists.mp (h r (List.mem_cons_self r rs))
    have hrest : ∀ x ∈ rs, (x.returns.getD j none).isSome = true :=
      fun x hx => h x (List.mem_cons_of_mem _ hx)
    have hcons : colVals (r :: rs) j = v :: colVals rs j :=
      List.filterMap_cons_some hv
    have hv' : r.returns[j]?.getD none = some v := by simpa using hv
    rw [hcons, List.map_cons, ih hrest]
    simp [valAt, hv']

theorem pairVals_of_complete (rows : List Row) (j k : ℕ)
    (hj : ∀ r ∈ rows, (r.returns.getD j none).isSome = true)
    (hk : ∀ r ∈ rows, (r.returns.getD k none).isSome = true) :
    pairVals rows j k = rows.map (fun r => (valAt r j, valAt r k)) := by
  induction rows with
  | nil => rfl
  | cons r rs ih =>
    obtain ⟨a, ha⟩ := Option.isSome_iff_exists.mp (hj r (List.mem_cons_self r rs))
    obtain ⟨b, hb⟩ := Option.isSome_iff_exists.mp (hk r (List.mem_cons_self r rs))
    have hjrest : ∀ x ∈ rs, (x.returns.getD j none).isSome = true :=
      fun x hx => hj x (List.mem_cons_of_mem _ hx)
    have hkrest : ∀ x ∈ rs, (x.returns.getD k none).isSome = true :=
      fun x hx => hk x (List.mem_cons_of_mem _ hx)
    have hfun : (match r.returns.getD j none, r.returns.getD k none with
        | some a, some b => some (a, b)
        | _, _ => none) = some (a, b) := by rw [ha, hb]
    have hcons : pairVals (r :: rs) j k = (a, b) :: pairVals rs j k :=
      List.filterMap_cons_some hfun
    have ha' : r.returns[j]?.getD none = some a := by simpa using ha
    have hb' : r.returns[k]?.getD none = some b := by simpa using hb
    rw [hcons, List.map_cons, ih hjrest hkrest]
    simp [valAt, ha', hb']

theorem cell_present (p : ℕ) (rows : List Row) (j : ℕ) (hj : j < p)
    (hcomp : ∀ r ∈ rows, ∀ c ∈ r.returns, c.isSome = true)
    (hwidth : ∀ r ∈ rows, r.returns.length = p) :
    ∀ r ∈ rows, (r.returns.getD j none).isSome = true := by
  intro r hr
  have hlen : j < r.returns.length := by rw [hwidth r hr]; exact hj
  rw [List.getD_eq_getElem _ _ hlen]
  exact hcomp r hr _ (List.getElem_mem hlen)

/-- C4. On complete data (no missing cells), the period-`t` estimate is
exactly the spec's formulas over the selected prior rows: per-column mean
with denominator `n`, and unbiased sample covariance with denominator
`n − 1`, where `n` is the number of rows dated before `t`. -/
theorem estimator_is_mean_and_sample_cov (p : ℕ) (df : List Row) (t j k : ℕ)
    (hj : j < p) (hk : k < p)
    (hcomp : ∀ r ∈ walk_forward df t, ∀ c ∈ r.returns, c.isSome = true)
    (hwidth : ∀ r ∈ walk_forward df t, r.returns.length = p)
    (hn : 2 ≤ (walk_forward df t).length) :
    (expected_returns p (walk_forward df t)).getD j none =
        some (((walk_forward df t).map (fun r => valAt r j)).sum /
          ((walk_forward df t).length : ℚ)) ∧
      ((cov_matrix p (walk_forward df t)).getD j []).getD k none =
        some (((walk_forward df t).map (fun r =>
            (valAt r j - ((walk_forward df t).map (fun x => valAt x j)).sum /
                ((walk_forward df t).length : ℚ)) *
            (valAt r k - ((walk_forward df t).map (fun x => valAt x k)).sum /
                ((walk_forward df t).length : ℚ)))).sum /
          (((walk_forward df t).length - 1 : ℕ) : ℚ)) := by
  have hcellj := cell_present p _ j hj hcomp hwidth
  have hcellk := cell_present p _ k hk hcomp hwidth
  have hvj := colVals_of_complete (walk_forward df t) j hcellj
  have hvk := colVals_of_complete (walk_forward df t) k hcellk
  have hpv := pairVals_of_complete (walk_forward df t) j k hcellj hcellk
  constructor
  · have hmap : (expected_returns p (walk_forward df t)).getD j none =
        colMean (walk_forward df t) j := by
      have hj' : j < (List.range p).length := by simpa using hj
      rw [expected_returns, List.getD_eq_getElem _ _ (by simpa using hj)]
      simp
    rw [hmap, colMean, hvj]
    have hne : walk_forward df t ≠ [] := by
      intro h
      rw [h] at hn
      exact absurd hn (by decide)
    simp [hne]
  · have h1 : j < ((List.range p).map
        (fun a => (List.range p).map (pairCov (walk_forward df t) a))).length := by
      simpa using hj
    have h2 : k < ((List.range p).map (pairCov (walk_forward df t) j)).length := by
      simpa using hk
    have hmap : ((cov_matrix p (walk_forward df t)).getD j []).getD k none =
        pairCov (walk_forward df t) j k := by
      rw [cov_matrix, List.getD_eq_getElem _ _ h1, List.getElem_map,
        List.getElem_range, List.getD_eq_getElem _ _ h2, List.getElem_map,
        List.getElem_range]
    rw [hmap, pairCov, hpv]
    have hlen2 : 2 ≤ ((walk_forward df t).map fun r => (valAt r j, valAt r k)).length := by
      simpa using hn
    rw [if_pos hlen2]
    simp [List.map_map, Function.comp_def]

/-- Witness for C4: three-row frame, target date 5 selects the first two
(complete) rows. -/
theorem estimator_is_mean_and_sample_cov_witness :
    ((0 : ℕ) < 2 ∧ (1 : ℕ) < 2 ∧
      (∀ r ∈ walk_forward [⟨0, [some 1, some 2]⟩, ⟨1, [some 3, some 5]⟩, ⟨9, [some 7, some 7]⟩] 5,
          ∀ c ∈ r.returns, c.isSome = true) ∧
      (∀ r ∈ walk_forward [⟨0, [some 1, some 2]⟩, ⟨1, [some 3, some 5]⟩, ⟨9, [some 7, some 7]⟩] 5,
          r.returns.length = 2) ∧
      2 ≤ (walk_forward [⟨0, [some 1, some 2]⟩, ⟨1, [some 3, some 5]⟩, ⟨9, [some 7, some 7]⟩] 5).length) ∧
    ((expected_returns 2 (walk_forward [⟨0, [some 1, some 2]⟩, ⟨1, [some 3, some 5]⟩, ⟨9, [some 7, some 7]⟩] 5)).getD 0 none =
        some (((walk_forward [⟨0, [some 1, some 2]⟩, ⟨1, [some 3, some 5]⟩, ⟨9, [some 7, some 7]⟩] 5).map (fun r => valAt r 0)).sum /
          (((walk_forward [⟨0, [some 1, some 2]⟩, ⟨1, [some 3, some 5]⟩, ⟨9, [some 7, some 7]⟩] 5).length : ℚ))) ∧
      ((cov_matrix 2 (walk_forward [⟨0, [some 1, some 2]⟩, ⟨1, [some 3, some 5]⟩, ⟨9, [some 7, some 7]⟩] 5)).getD 0 []).getD 1 none =
        some (((walk_forward [⟨0, [some 1, some 2]⟩, ⟨1, [some 3, some 5]⟩, ⟨9, [some 7, some 7]⟩] 5).map (fun r =>
            (valAt r 0 - ((walk_forward [⟨0, [some 1, some 2]⟩, ⟨1, [some 3, some 5]⟩, ⟨9, [some 7, some 7]⟩] 5).map (fun x => valAt x 0)).sum /
                (((walk_forward [⟨0, [some 1, some 2]⟩, ⟨1, [some 3, some 5]⟩, ⟨9, [some 7, some 7]⟩] 5).length : ℚ))) *
            (valAt r 1 - ((walk_forward [⟨0, [some 1, some 2]⟩, ⟨1, [some 3, some 5]⟩, ⟨9, [some 7, some 7]⟩] 5).map (fun x => valAt x 1)).sum /
                (((walk_forward [⟨0, [some 1, some 2]⟩, ⟨1, [some 3, some 5]⟩, ⟨9, [some 7, some 7]⟩] 5).length : ℚ))))).sum /
          ((((walk_forward [⟨0, [some 1, some 2]⟩, ⟨1, [some 3, some 5]⟩, ⟨9, [some 7, some 7]⟩] 5).length - 1 : ℕ)) : ℚ))) :=
  ⟨⟨by decide, by decide, by decide, by decide, by decide⟩,
    estimator_is_mean_and_sample_cov 2
      [⟨0, [some 1, some 2]⟩, ⟨1, [some 3, some 5]⟩, ⟨9, [some 7, some 7]⟩] 5 0 1
      (by decide) (by decide) (by decide) (by decide) (by decide)⟩

/-! ## The per-period optimization loop (`generate_portfolio`, lines 55–149)

`scipy.optimize.minimize` is abstracted as a `Solver` oracle: it always
returns a result object — it raises no exception on non-convergence, it
only sets `success = False` — and the code reads nothing but
`opt_result.x`.  Everything else (the date filter, the estimates, the
append-per-period accumulation, and the single global 10% check of lines
143–147) is embedded directly. -/

/-- The result object of `scipy.optimize.minimize`: the candidate point
`x` and the convergence flag `success`. -/
structure OptResult where
  x : List ℚ
  success : Bool
deriving DecidableEq, Repr

/-- The abstracted SLSQP call of lines 125–132: from the period's
estimates to a result object. -/
abbrev Solver : Type := List (Option ℚ) → List (List (Option ℚ)) → OptResult

/-- Lines 143–146: `np.array(df_weights[list_stocks]) > 0.101` selects a
nonempty set, i.e. some weight of some row strictly exceeds `0.101`. -/
def hasViolation (ws : List WRow) : Bool :=
  ws.any (fun r => r.weights.any (fun x => decide ((0.101 : ℚ) < x)))

/-- Lines 78–139: start from the equal-weight rows for the training span
(`equalise_weights(df_returns[:n_train])`) and, for each test period `i`
in order, filter the combined frame to dates before that period, estimate,
call the solver, and append one row carrying `opt_result.x`. -/
def final_schedule (p : ℕ) (solve : Solver) (df_train df_test : List Row) : List WRow :=
  let n_train := df_train.length
  let df_returns := df_train ++ df_test
  (List.range df_test.length).foldl
    (fun acc i =>
      let trow := df_test.getD i rowdflt
      let df_latest := walk_forward df_returns trow.month_end
      let opt_result := solve (expected_returns p df_latest) (cov_matrix p df_latest)
      acc ++ [⟨trow.month_end, opt_result.x⟩])
    (equalise_weights p (df_returns.take n_train))

/-- Lines 55–149: run the loop, then perform the 10% limit check once,
globally, on the finished schedule; raise on breach, otherwise return the
combined returns and the schedule unchanged. -/
def generate_portfolio (p : ℕ) (solve : Solver) (df_train df_test : List Row) :
    Except String (List Row × List WRow) :=
  if hasViolation (final_schedule p solve df_train df_test) then
    Except.error "---> 10% limit exceeded"
  else
    Except.ok (df_train ++ df_test, final_schedule p solve df_train df_test)

theorem foldl_append_singleton {α β : Type} (f : β → α) (init : List α) (l : List β) :
    l.foldl (fun acc i => acc ++ [f i]) init = init ++ l.map f := by
  induction l generalizing init with
  | nil => simp
  | cons x xs ih => simp [ih]

/-- Closed form of the loop: the equal-weight training rows followed by
one solver row per test period, in order. -/
theorem final_schedule_eq (p : ℕ) (solve : Solver) (df_train df_test : List Row) :
    final_schedule p solve df_train df_test =
      equalise_weights p df_train ++
        (List.range df_test.length).map (fun i =>
          ⟨(df_test.getD i rowdflt).month_end,
            (solve
              (expected_returns p (walk_forward (df_train ++ df_test) (df_test.getD i rowdflt).month_end))
              (cov_matrix p (walk_forward (df_train ++ df_test) (df_test.getD i rowdflt).month_end))).x⟩) := by
  unfold final_schedule
  rw [foldl_append_singleton
    (fun i => (⟨(df_test.getD i rowdflt).month_end,
      (solve
        (expected_returns p (walk_forward (df_train ++ df_test) (df_test.getD i rowdflt).month_end))
        (cov_matrix p (walk_forward (df_train ++ df_test) (df_test.getD i rowdflt).month_end))).x⟩ : WRow))]
  rw [List.take_left]

/-- C3. The run raises the hard error `"---> 10% limit exceeded"` iff some
weight of some row of the finished schedule strictly exceeds `0.101`; the
check sits once after the loop (it examines only the finished schedule),
and with no breach the schedule is returned unchanged alongside the
combined returns. -/
theorem cap_check_global (p : ℕ) (solve : Solver) (df_train df_test : List Row) :
    ( generate_portfolio p solve df_train df_test = Except.error "---> 10% limit exceeded" ↔
        ∃ r ∈ final_schedule p solve df_train df_test, ∃ x ∈ r.weights, (0.101 : ℚ) < x) ∧
      ((¬∃ r ∈ final_schedule p solve df_train df_test, ∃ x ∈ r.weights, (0.101 : ℚ) < x) →
        generate_portfolio p solve df_train df_test =
          Except.ok (df_train ++ df_test, final_schedule p solve df_train df_test)) := by
  have hiff : hasViolation (final_schedule p solve df_train df_test) = true ↔
      ∃ r ∈ final_schedule p solve df_train df_test, ∃ x ∈ r.weights, (0.101 : ℚ) < x := by
    simp [hasViolation, List.any_eq_true]
  constructor
  · constructor
    · intro h
      by_cases hv : hasViolation (final_schedule p solve df_train df_test) = true
      · exact hiff.mp hv
      · exact absurd h (by simp [ generate_portfolio, hv])
    · intro h
      simp [ generate_portfolio, hiff.mpr h]
  · intro h
    have hv : hasViolation (final_schedule p solve df_train df_test) = false := by
      by_cases hv : hasViolation (final_schedule p solve df_train df_test) = true
      · exact absurd (hiff.mp hv) h
      · simpa using hv
    simp [ generate_portfolio, hv]

/-- Witness for C3 (no-breach side): a single test period whose solver row
is `[1/10]`; no weight exceeds `0.101`, so the schedule comes back
unchanged. -/
theorem cap_check_global_witness :
    (¬∃ r ∈ final_schedule 1 (fun _ _ => ⟨[(1 : ℚ)/10], true⟩) [] [⟨1, [some 0]⟩],
        ∃ x ∈ r.weights, (0.101 : ℚ) < x) ∧
      generate_portfolio 1 (fun _ _ => ⟨[(1 : ℚ)/10], true⟩) [] [⟨1, [some 0]⟩] =
        Except.ok (([] : List Row) ++ [⟨1, [some 0]⟩],
          final_schedule 1 (fun _ _ => ⟨[(1 : ℚ)/10], true⟩) [] [⟨1, [some 0]⟩]) := by
  have h : ¬∃ r ∈ final_schedule 1 (fun _ _ => ⟨[(1 : ℚ)/10], true⟩) [] [⟨1, [some 0]⟩],
      ∃ x ∈ r.weights, (0.101 : ℚ) < x := by
    rw [final_schedule_eq]
    norm_num [equalise_weights]
  exact ⟨h, (cap_check_global 1 (fun _ _ => ⟨[(1 : ℚ)/10], true⟩) [] [⟨1, [some 0]⟩]).2 h⟩

/-- C10. Whatever the solver returns, a successfully returned schedule has
`len(df_train) + len(df_test)` rows: the first `len(df_train)` are the
equal-weight rows (`1/p` per stock), and row `len(df_train) + i` is
exactly the solver's vector for test period `i`, so one optimized row per
test period, in test-period order. -/
theorem schedule_shape (p : ℕ) (solve : Solver) (df_train df_test : List Row)
    (res : List Row × List WRow)
    (h : generate_portfolio p solve df_train df_test = Except.ok res) :
    res.2.length = df_train.length + df_test.length ∧
      (∀ i, i < df_train.length → res.2.getD i wrdflt =
        ⟨(df_train.getD i rowdflt).month_end, List.replicate p (1 / (p : ℚ))⟩) ∧
      (∀ i, i < df_test.length → res.2.getD (df_train.length + i) wrdflt =
        ⟨(df_test.getD i rowdflt).month_end,
          (solve
            (expected_returns p (walk_forward (df_train ++ df_test) (df_test.getD i rowdflt).month_end))
            (cov_matrix p (walk_forward (df_train ++ df_test) (df_test.getD i rowdflt).month_end))).x⟩) := by
  obtain ⟨r1, r2⟩ := res
  have hsnd : r2 = final_schedule p solve df_train df_test := by
    by_cases hv : hasViolation (final_schedule p solve df_train df_test) = true
    · simp [ generate_portfolio, hv] at h
    · simp only [ generate_portfolio, hv, Bool.false_eq_true, if_false,
        Except.ok.injEq, Prod.mk.injEq] at h
      exact h.2.symm
  have hlen : (equalise_weights p df_train).length = df_train.length := by
    simp [equalise_weights]
  refine ⟨?_, ?_, ?_⟩
  · rw [hsnd, final_schedule_eq]
    simp [equalise_weights]
  · intro i hi
    rw [hsnd, final_schedule_eq,
      List.getD_append _ _ _ _ (by rw [hlen]; exact hi),
      List.getD_eq_getElem _ _ (by rw [hlen]; exact hi),
      List.getD_eq_getElem _ _ hi]
    simp [equalise_weights]
  · intro i hi
    rw [hsnd, final_schedule_eq,
      List.getD_append_right _ _ _ _ (by rw [hlen]; omega)]
    rw [hlen, Nat.add_sub_cancel_left]
    rw [List.getD_eq_getElem _ _ (by simpa using hi)]
    simp


/-- Concrete solver for the C10 witness: always the uniform 10-stock
vector, converged. -/
def c10_solver : Solver := fun _ _ => ⟨List.replicate 10 ((1 : ℚ)/10), true⟩

def c10_train : List Row := [⟨0, List.replicate 10 (some 0)⟩]

def c10_test : List Row := [⟨1, List.replicate 10 (some 0)⟩]

/-- Witness for C10: one training row, one test period, ten stocks, a
solver returning the uniform vector. -/
theorem schedule_shape_witness :
    generate_portfolio 10 c10_solver c10_train c10_test =
        Except.ok (c10_train ++ c10_test, final_schedule 10 c10_solver c10_train c10_test) ∧
      ((final_schedule 10 c10_solver c10_train c10_test).length = 1 + 1 ∧
        (final_schedule 10 c10_solver c10_train c10_test).getD 0 wrdflt =
          ⟨0, List.replicate 10 (1 / (10 : ℚ))⟩ ∧
        (final_schedule 10 c10_solver c10_train c10_test).getD (1 + 0) wrdflt =
          ⟨1, List.replicate 10 ((1 : ℚ)/10)⟩) := by
  have hv : hasViolation (final_schedule 10 c10_solver c10_train c10_test) = false := by
    rw [final_schedule_eq]
    norm_num [hasViolation, equalise_weights, c10_solver, c10_train, c10_test,
      List.replicate_succ]
  have hok : generate_portfolio 10 c10_solver c10_train c10_test =
      Except.ok (c10_train ++ c10_test, final_schedule 10 c10_solver c10_train c10_test) := by
    unfold generate_portfolio
    rw [hv]
    simp
  obtain ⟨h1, h2, h3⟩ := schedule_shape 10 c10_solver c10_train c10_test _ hok
  refine ⟨hok, ?_, ?_, ?_⟩
  · simpa [c10_train, c10_test] using h1
  · simpa [c10_train, c10_test] using h2 0 (by simp [c10_train])
  · simpa [c10_train, c10_test, c10_solver] using h3 0 (by simp [c10_test])

/-- Concrete solver reporting non-convergence (`success = False`) on every
call, as SLSQP does on an ill-conditioned problem; `minimize` still
returns this object instead of raising. -/
def c7_solver : Solver := fun _ _ => ⟨List.replicate 10 ((1 : ℚ)/10), false⟩

def c7_train : List Row := [⟨0, List.replicate 10 (some 0)⟩, ⟨1, List.replicate 10 (some 0)⟩]

def c7_test : List Row := [⟨2, List.replicate 10 (some 0)⟩]

/-- C7 counterexample: the solver for the sole test period reports
non-convergence, yet the run raises nothing — it returns `ok` and the
schedule's appended row is exactly the non-converged `opt_result.x`. -/
theorem nonconverged_row_silently_appended :
    (c7_solver
        (expected_returns 10 (walk_forward (c7_train ++ c7_test) 2))
        (cov_matrix 10 (walk_forward (c7_train ++ c7_test) 2))).success = false ∧
      generate_portfolio 10 c7_solver c7_train c7_test =
        Except.ok (c7_train ++ c7_test, final_schedule 10 c7_solver c7_train c7_test) ∧
      (final_schedule 10 c7_solver c7_train c7_test).getD 2 wrdflt =
        ⟨2, List.replicate 10 ((1 : ℚ)/10)⟩ := by
  have hv : hasViolation (final_schedule 10 c7_solver c7_train c7_test) = false := by
    rw [final_schedule_eq]
    norm_num [hasViolation, equalise_weights, c7_solver, c7_train, c7_test,
      List.replicate_succ]
  refine ⟨rfl, ?_, ?_⟩
  · unfold generate_portfolio
    rw [hv]
    simp
  · rw [final_schedule_eq]
    simp [equalise_weights, c7_solver, c7_train, c7_test]

/-- C7 (amended). `generate_portfolio` never inspects the solver's
convergence flag: two solvers agreeing on `x` give identical runs,
whatever their `success` flags — a non-converged vector is appended like
any other, with no per-period failure. -/
theorem solver_flag_ignored (p : ℕ) (s1 s2 : Solver) (df_train df_test : List Row)
    (h : ∀ er cm, (s1 er cm).x = (s2 er cm).x) :
    generate_portfolio p s1 df_train df_test = generate_portfolio p s2 df_train df_test := by
  have hfs : final_schedule p s1 df_train df_test = final_schedule p s2 df_train df_test := by
    rw [final_schedule_eq, final_schedule_eq]
    simp only [h]
  unfold generate_portfolio
  rw [hfs]

def c7w_conv : Solver := fun _ _ => ⟨[(1 : ℚ)/10], true⟩

def c7w_fail : Solver := fun _ _ => ⟨[(1 : ℚ)/10], false⟩

/-- Witness for C7's amended statement: flipping the convergence flag of
an otherwise identical solver changes nothing. -/
theorem solver_flag_ignored_witness :
    (∀ er cm, (c7w_conv er cm).x = (c7w_fail er cm).x) ∧
      generate_portfolio 1 c7w_conv [] [⟨1, [some 0]⟩] =
        generate_portfolio 1 c7w_fail [] [⟨1, [some 0]⟩] :=
  ⟨fun _ _ => rfl,
    solver_flag_ignored 1 c7w_conv c7w_fail [] [⟨1, [some 0]⟩] (fun _ _ => rfl)⟩

def c8_solver : Solver := fun _ _ => ⟨List.replicate 10 ((1 : ℚ)/10), true⟩

def c8_train : List Row := [⟨0, List.replicate 10 (some 0)⟩]

def c8_test : List Row := [⟨1, List.replicate 10 (some 0)⟩]

/-- C8 counterexample: the sole test period has exactly one prior row, so
the whole covariance estimate is NaN (`none` everywhere) — yet the run
propagates no failure: it returns `ok` and a weight row for that period is
produced. -/
theorem degenerate_covariance_not_propagated :
    (walk_forward (c8_train ++ c8_test) 1).length < 2 ∧
      cov_matrix 10 (walk_forward (c8_train ++ c8_test) 1) =
        List.replicate 10 (List.replicate 10 none) ∧
      generate_portfolio 10 c8_solver c8_train c8_test =
        Except.ok (c8_train ++ c8_test, final_schedule 10 c8_solver c8_train c8_test) ∧
      (final_schedule 10 c8_solver c8_train c8_test).getD 1 wrdflt =
        ⟨1, List.replicate 10 ((1 : ℚ)/10)⟩ := by
  have hv : hasViolation (final_schedule 10 c8_solver c8_train c8_test) = false := by
    rw [final_schedule_eq]
    norm_num [hasViolation, equalise_weights, c8_solver, c8_train, c8_test,
      List.replicate_succ]
  refine ⟨by decide, by decide, ?_, ?_⟩
  · unfold generate_portfolio
    rw [hv]
    simp
  · rw [final_schedule_eq]
    simp [equalise_weights, c8_solver, c8_train, c8_test]

/-- C8 (amended). When fewer than two rows precede a period, every entry
of that period's covariance estimate is NaN (`none`); the run does not
fail for it — the solver's vector is still appended, and the only error
`generate_portfolio` can raise remains the global cap check. -/
theorem degenerate_covariance_is_nan_not_fatal (p : ℕ) (solve : Solver)
    (df_train df_test : List Row) (t : ℕ)
    (hdeg : (walk_forward (df_train ++ df_test) t).length < 2) :
    (∀ row ∈ cov_matrix p (walk_forward (df_train ++ df_test) t), ∀ c ∈ row, c = none) ∧
      (hasViolation (final_schedule p solve df_train df_test) = false →
        generate_portfolio p solve df_train df_test =
          Except.ok (df_train ++ df_test, final_schedule p solve df_train df_test)) := by
  constructor
  · intro row hrow c hc
    simp only [cov_matrix, List.mem_map, List.mem_range] at hrow
    obtain ⟨j, _, rfl⟩ := hrow
    simp only [List.mem_map, List.mem_range] at hc
    obtain ⟨k, _, rfl⟩ := hc
    have hle : (pairVals (walk_forward (df_train ++ df_test) t) j k).length ≤
        (walk_forward (df_train ++ df_test) t).length :=
      List.length_filterMap_le _ _
    rw [pairCov, if_neg (by omega)]
  · intro hv
    unfold generate_portfolio
    rw [hv]
    simp

/-- Witness for C8's amended statement on the one-prior-row frame. -/
theorem degenerate_covariance_is_nan_not_fatal_witness :
    ((walk_forward (c8_train ++ c8_test) 1).length < 2 ∧
        hasViolation (final_schedule 10 c8_solver c8_train c8_test) = false) ∧
      (∀ row ∈ cov_matrix 10 (walk_forward (c8_train ++ c8_test) 1), ∀ c ∈ row, c = none) ∧
        generate_portfolio 10 c8_solver c8_train c8_test =
          Except.ok (c8_train ++ c8_test, final_schedule 10 c8_solver c8_train c8_test) := by
  have hdeg : (walk_forward (c8_train ++ c8_test) 1).length < 2 := by decide
  have hv : hasViolation (final_schedule 10 c8_solver c8_train c8_test) = false := by
    rw [final_schedule_eq]
    norm_num [hasViolation, equalise_weights, c8_solver, c8_train, c8_test,
      List.replicate_succ]
  exact ⟨⟨hdeg, hv⟩,
    (degenerate_covariance_is_nan_not_fatal 10 c8_solver c8_train c8_test 1 hdeg).1,
    (degenerate_covariance_is_nan_not_fatal 10 c8_solver c8_train c8_test 1 hdeg).2 hv⟩

def c9_solver : Solver := fun _ _ => ⟨List.replicate 10 ((1 : ℚ)/10), true⟩

def c9_train : List Row := [⟨5, List.replicate 10 (some 0)⟩, ⟨3, List.replicate 10 (some 0)⟩]

def c9_test : List Row := [⟨4, List.replicate 10 (some 0)⟩]

/-- C9 counterexample: the training dates are non-monotonic (5 then 3) and
the test date 4 lies inside the training range, yet nothing fails fast —
the run performs the estimation (the date filter picks up the out-of-order
row dated 3) and completes with `ok`. -/
theorem overlapping_ranges_not_rejected :
    ¬(c9_train.getD 0 rowdflt).month_end < (c9_train.getD 1 rowdflt).month_end ∧
      (c9_test.getD 0 rowdflt).month_end < (c9_train.getD 0 rowdflt).month_end ∧
      walk_forward (c9_train ++ c9_test) 4 = [⟨3, List.replicate 10 (some 0)⟩] ∧
      generate_portfolio 10 c9_solver c9_train c9_test =
        Except.ok (c9_train ++ c9_test, final_schedule 10 c9_solver c9_train c9_test) := by
  have hv : hasViolation (final_schedule 10 c9_solver c9_train c9_test) = false := by
    rw [final_schedule_eq]
    norm_num [hasViolation, equalise_weights, c9_solver, c9_train, c9_test,
      List.replicate_succ]
  refine ⟨by decide, by decide, by decide, ?_⟩
  unfold generate_portfolio
  rw [hv]
  simp

/-- C9 (amended). There is no date-ordering validation anywhere: for any
inputs — overlapping, non-monotonic or otherwise — the only error the run
can ever raise is the post-loop 10% cap message. -/
theorem only_error_is_cap_message (p : ℕ) (solve : Solver) (df_train df_test : List Row)
    (msg : String)
    (h : generate_portfolio p solve df_train df_test = Except.error msg) :
    msg = "---> 10% limit exceeded" := by
  by_cases hv : hasViolation (final_schedule p solve df_train df_test) = true
  · unfold generate_portfolio at h
    rw [hv] at h
    simp only [if_true, Except.error.injEq] at h
    exact h.symm
  · unfold generate_portfolio at h
    rw [Bool.not_eq_true] at hv
    rw [hv] at h
    simp at h

/-- Witness for C9's amended statement: a one-stock universe breaches the
cap (equal weight 1 > 0.101), and the resulting error is exactly the cap
message. -/
theorem only_error_is_cap_message_witness :
    generate_portfolio 1 (fun _ _ => ⟨[], true⟩) [⟨0, [some 0]⟩] [] =
        Except.error "---> 10% limit exceeded" ∧
      ("---> 10% limit exceeded" : String) = "---> 10% limit exceeded" := by
  have hv : hasViolation (final_schedule 1 (fun _ _ => ⟨[], true⟩) [⟨0, [some 0]⟩] []) = true := by
    rw [final_schedule_eq]
    norm_num [hasViolation, equalise_weights]
  have herr : generate_portfolio 1 (fun _ _ => ⟨[], true⟩) [⟨0, [some 0]⟩] [] =
      Except.error "---> 10% limit exceeded" := by
    unfold generate_portfolio
    rw [hv]
    simp
  exact ⟨herr, only_error_is_cap_message 1 (fun _ _ => ⟨[], true⟩) [⟨0, [some 0]⟩] [] _ herr⟩

/-! ## The performance aggregator (`plot_total_return`, lines 152–206)

NaN returns are replaced by 0 (`np.nan_to_num`), each period's realized
return is the weight·return sum across stocks (positional alignment of the
weight row with the return row), the table is sorted ascending by date
(`sort_values`), and each series is chained by `(1 + r).cumprod() * 100`. -/

/-- One row of the `df_rtn` frame before the total-return columns. -/
structure RtnRow where
  month_end : ℕ
  idx : ℚ
  port : ℚ
deriving DecidableEq, Repr

/-- One row of the finished `df_rtn` frame. -/
structure TRRow where
  month_end : ℕ
  idx : ℚ
  port : ℚ
  index_tr : ℚ
  port_tr : ℚ
deriving DecidableEq, Repr

def rtndflt : RtnRow := ⟨0, 0, 0⟩

def trdflt : TRRow := ⟨0, 0, 0, 0, 0⟩

/-- Line 175: `np.nan_to_num(x=ar_returns, copy=False, nan=0)`. -/
def nan_to_num (c : Option ℚ) : ℚ := c.getD 0

/-- Lines 178–182: elementwise weight × return, summed across stocks. -/
def row_return (w : List ℚ) (r : List (Option ℚ)) : ℚ :=
  (List.zipWith (fun wi ri => wi * nan_to_num ri) w r).sum

/-- Lines 178–188: the per-period realized-return table for both weight
schedules, rows aligned positionally with the return frame. -/
def return_table (df : List Row) (wI wP : List WRow) : List RtnRow :=
  List.zipWith
    (fun r (pq : WRow × WRow) =>
      ⟨r.month_end, row_return pq.1.weights r.returns, row_return pq.2.weights r.returns⟩)
    df (wI.zip wP)

/-- Line 192: `df_rtn.sort_values(by="month_end")`. -/
def sort_by_date (l : List RtnRow) : List RtnRow :=
  List.insertionSort (fun a b => a.month_end ≤ b.month_end) l

/-- pandas `Series.cumprod` with running accumulator `acc`. -/
def cumprodFrom (acc : ℚ) : List ℚ → List ℚ
  | [] => []
  | x :: xs => (acc * x) :: cumprodFrom (acc * x) xs

def cumprod (l : List ℚ) : List ℚ := cumprodFrom 1 l

/-- Line 191: `base_price = 100`. -/
def base_price : ℚ := 100

/-- Lines 169–195: the finished total-return frame (the plotting of lines
197–204 consumes it unchanged). -/
def plot_total_return (df : List Row) (wI wP : List WRow) : List TRRow :=
  let df_rtn := sort_by_date (return_table df wI wP)
  let index_tr := (cumprod (df_rtn.map (fun r => 1 + r.idx))).map (fun x => x * base_price)
  let port_tr := (cumprod (df_rtn.map (fun r => 1 + r.port))).map (fun x => x * base_price)
  List.zipWith (fun r (pq : ℚ × ℚ) => ⟨r.month_end, r.idx, r.port, pq.1, pq.2⟩)
    df_rtn (index_tr.zip port_tr)

instance : IsTotal RtnRow (fun a b => a.month_end ≤ b.month_end) :=
  ⟨fun a b => Nat.le_total a.month_end b.month_end⟩

instance : IsTrans RtnRow (fun a b => a.month_end ≤ b.month_end) :=
  ⟨fun _ _ _ hab hbc => Nat.le_trans hab hbc⟩

theorem length_cumprodFrom (a : ℚ) (l : List ℚ) : (cumprodFrom a l).length = l.length := by
  induction l generalizing a with
  | nil => rfl
  | cons x xs ih => simp [cumprodFrom, ih]

/-- The running product at position `t` is the product of the first
`t + 1` factors. -/
theorem cumprodFrom_getD (a : ℚ) (l : List ℚ) (t : ℕ) (h : t < l.length) :
    (cumprodFrom a l).getD t 0 = a * ((l.take (t+1)).prod) := by
  induction l generalizing a t with
  | nil => simp at h
  | cons x xs ih =>
    cases t with
    | zero => simp [cumprodFrom]
    | succ n =>
      have hn : n < xs.length := by simpa using h
      simp only [cumprodFrom, List.getD_cons_succ]
      rw [ih (a * x) n hn, List.take_succ_cons, List.prod_cons, ← mul_assoc]

theorem zipWith_left_proj {α β γ : Type} (g : α → γ) (l : List α) (l' : List β)
    (h : l.length ≤ l'.length) :
    List.zipWith (fun a _ => g a) l l' = l.map g := by
  induction l generalizing l' with
  | nil => simp
  | cons a as ih =>
    cases l' with
    | nil => simp at h
    | cons b bs =>
      simp only [List.zipWith_cons_cons, List.map_cons]
      rw [ih bs (by simpa using h)]

theorem plot_total_return_length (df : List Row) (wI wP : List WRow) :
    (plot_total_return df wI wP).length = (sort_by_date (return_table df wI wP)).length := by
  simp [plot_total_return, cumprod, length_cumprodFrom]

theorem plot_total_return_getD (df : List Row) (wI wP : List WRow) (t : ℕ)
    (ht : t < (plot_total_return df wI wP).length) :
    (plot_total_return df wI wP).getD t trdflt =
      ⟨((sort_by_date (return_table df wI wP)).getD t rtndflt).month_end,
        ((sort_by_date (return_table df wI wP)).getD t rtndflt).idx,
        ((sort_by_date (return_table df wI wP)).getD t rtndflt).port,
        (((sort_by_date (return_table df wI wP)).take (t+1)).map (fun r => 1 + r.idx)).prod * 100,
        (((sort_by_date (return_table df wI wP)).take (t+1)).map (fun r => 1 + r.port)).prod * 100⟩ := by
  have ht' : t < (sort_by_date (return_table df wI wP)).length := by
    rw [← plot_total_return_length df wI wP]
    exact ht
  have hidxlen : t < ((cumprod ((sort_by_date (return_table df wI wP)).map
      (fun r => 1 + r.idx))).map (fun x => x * base_price)).length := by
    simpa [cumprod, length_cumprodFrom] using ht'
  have hportlen : t < ((cumprod ((sort_by_date (return_table df wI wP)).map
      (fun r => 1 + r.port))).map (fun x => x * base_price)).length := by
    simpa [cumprod, length_cumprodFrom] using ht'
  rw [List.getD_eq_getElem _ _ ht]
  simp only [plot_total_return]
  rw [List.getElem_zipWith, List.getElem_zip, List.getElem_map, List.getElem_map]
  rw [List.getD_eq_getElem _ _ ht']
  have hcidx : t < (cumprod ((sort_by_date (return_table df wI wP)).map
      (fun r => 1 + r.idx))).length := by simpa using hidxlen
  have hcport : t < (cumprod ((sort_by_date (return_table df wI wP)).map
      (fun r => 1 + r.port))).length := by simpa using hportlen
  rw [← List.getD_eq_getElem (cumprod ((sort_by_date (return_table df wI wP)).map
      (fun r => 1 + r.idx))) 0 hcidx]
  rw [← List.getD_eq_getElem (cumprod ((sort_by_date (return_table df wI wP)).map
      (fun r => 1 + r.port))) 0 hcport]
  simp only [cumprod]
  rw [cumprodFrom_getD _ _ _ (by simpa using ht'),
    cumprodFrom_getD _ _ _ (by simpa using ht')]
  rw [List.map_take, List.map_take]
  simp [base_price]

/-- C6. Missing returns count as 0 (via `nan_to_num` inside `row_return`),
and the output frame — ordered ascending by date — carries, at every
position `t`, cumulative indices `100 · Π_{k ≤ t} (1 + return_k)` for both
series; in particular a zero first-period return gives a first cumulative
index of exactly 100. -/
theorem total_return_chained (df : List Row) (wI wP : List WRow) (t : ℕ)
    (ht : t < (plot_total_return df wI wP).length) :
    ((plot_total_return df wI wP).getD t trdflt).index_tr =
        100 * (((sort_by_date (return_table df wI wP)).take (t+1)).map (fun r => 1 + r.idx)).prod ∧
      ((plot_total_return df wI wP).getD t trdflt).port_tr =
        100 * (((sort_by_date (return_table df wI wP)).take (t+1)).map (fun r => 1 + r.port)).prod ∧
      (t = 0 → ((plot_total_return df wI wP).getD 0 trdflt).idx = 0 →
        ((plot_total_return df wI wP).getD 0 trdflt).index_tr = 100) ∧
      List.Sorted (fun a b : ℕ => a ≤ b) ((plot_total_return df wI wP).map (fun r => r.month_end)) := by
  have hmain := plot_total_return_getD df wI wP t ht
  refine ⟨?_, ?_, ?_, ?_⟩
  · rw [hmain]
    exact mul_comm _ _
  · rw [hmain]
    exact mul_comm _ _
  · intro h0 hidx
    subst h0
    rw [hmain] at hidx ⊢
    simp only at hidx ⊢
    have ht' : (0 : ℕ) < (sort_by_date (return_table df wI wP)).length := by
      rw [← plot_total_return_length df wI wP]
      exact ht
    rcases hS : sort_by_date (return_table df wI wP) with _ | ⟨a, l⟩
    · exact absurd ht' (by simp [hS])
    · rw [hS] at hidx
      simp only [List.getD_cons_zero] at hidx
      simp [hidx]
  · have hsor : List.Sorted (fun a b : RtnRow => a.month_end ≤ b.month_end)
        (sort_by_date (return_table df wI wP)) :=
      List.sorted_insertionSort _ _
    have hle : (sort_by_date (return_table df wI wP)).length ≤
        (((cumprod ((sort_by_date (return_table df wI wP)).map (fun r => 1 + r.idx))).map
            (fun x => x * base_price)).zip
          ((cumprod ((sort_by_date (return_table df wI wP)).map (fun r => 1 + r.port))).map
            (fun x => x * base_price))).length := by
      simp [cumprod, length_cumprodFrom]
    have hmapeq : (plot_total_return df wI wP).map (fun r => r.month_end) =
        (sort_by_date (return_table df wI wP)).map (fun r => r.month_end) := by
      simp only [plot_total_return, List.map_zipWith]
      exact zipWith_left_proj (fun r => r.month_end) _ _ hle
    rw [hmapeq]
    exact List.Pairwise.map _ (fun a b h => h) hsor

/-- Witness for C6: a single period with a missing (NaN) return for the
only stock — the realized return is 0 and the first cumulative index is
exactly 100. -/
theorem total_return_chained_witness :
    0 < (plot_total_return [⟨1, [none]⟩] [⟨1, [1]⟩] [⟨1, [1]⟩]).length ∧
      (((plot_total_return [⟨1, [none]⟩] [⟨1, [1]⟩] [⟨1, [1]⟩]).getD 0 trdflt).index_tr =
          100 * (((sort_by_date (return_table [⟨1, [none]⟩] [⟨1, [1]⟩] [⟨1, [1]⟩])).take (0+1)).map
            (fun r => 1 + r.idx)).prod ∧
        ((plot_total_return [⟨1, [none]⟩] [⟨1, [1]⟩] [⟨1, [1]⟩]).getD 0 trdflt).port_tr =
          100 * (((sort_by_date (return_table [⟨1, [none]⟩] [⟨1, [1]⟩] [⟨1, [1]⟩])).take (0+1)).map
            (fun r => 1 + r.port)).prod ∧
        ((0 : ℕ) = 0 → ((plot_total_return [⟨1, [none]⟩] [⟨1, [1]⟩] [⟨1, [1]⟩]).getD 0 trdflt).idx = 0 →
          ((plot_total_return [⟨1, [none]⟩] [⟨1, [1]⟩] [⟨1, [1]⟩]).getD 0 trdflt).index_tr = 100) ∧
        List.Sorted (fun a b : ℕ => a ≤ b)
          ((plot_total_return [⟨1, [none]⟩] [⟨1, [1]⟩] [⟨1, [1]⟩]).map (fun r => r.month_end))) :=
  ⟨by decide, total_return_chained [⟨1, [none]⟩] [⟨1, [1]⟩] [⟨1, [1]⟩] 0 (by decide)⟩
